import Mathlib

/-!
Verification of the reviewer-assignment and team-membership-cascade engine
of the `reviewer-service` repository (Go).  The Go services are embedded as
pure Lean functions over an explicit in-memory state: the relational store
(teams / users / pull_requests / pr_reviewers tables) becomes the `St`
structure, each repository call becomes a pure function on `St`, and the
service functions (`CreatePR`, `MergePR`, `ReassignReviewer` from
internal/service/pr_service.go and `DeactivateTeamMembers` from the team
service) become functions `St → … → Except Err …`.

Sources of nondeterminism in the Go code are made explicit parameters:
  * `rand.Shuffle` in `selectRandomReviewers` — the caller passes the
    shuffled candidate list (theorems quantify over all permutations);
  * `rand.Intn` in `ReassignReviewer` — an arbitrary index `k`;
  * Go map iteration order in `DeactivateTeamMembers` (the `activeMap`
    enumeration and the `reviewerPRs` grouping) — the caller passes the
    enumerated `activeList` and the grouped `(reviewerID, open PRs)` list.
Timestamps are modelled as `Nat` values passed in by the caller.
-/

/-- Embeds `models.User` (internal/models/models.go). -/
structure User where
  userID : String
  username : String
  teamName : String
  isActive : Bool
  deriving Repr, DecidableEq

/-- Embeds `models.PullRequest` (internal/models/models.go); timestamps as `Option Nat`. -/
structure PullRequest where
  prID : String
  prName : String
  authorID : String
  status : String
  assignedReviewers : List String
  createdAt : Option Nat
  mergedAt : Option Nat
  deriving Repr, DecidableEq

/-- The typed service errors of internal/service/errors.go. -/
inductive Err where
  | teamExists
  | teamNotFound
  | userNotFound
  | prExists
  | prNotFound
  | authorNotFound
  | prMerged
  | notAssigned
  | noCandidate
  | invalidTeamMember
  deriving Repr, DecidableEq

/-- The backing relational store: `teams`, `users` and `pull_requests` +
`pr_reviewers` tables (reviewer rows are kept inline in each PR, as the
repository layer always reads them grouped with `array_agg`). -/
structure St where
  teams : List String
  users : List User
  prs : List PullRequest
  deriving Repr, DecidableEq

/-- Embeds `PullRequestRepository.GetByID` (row lookup by primary key). -/
def getPRByID (st : St) (prID : String) : Option PullRequest :=
  st.prs.find? (fun pr => decide (pr.prID = prID))

/-- Embeds `UserRepository.GetByID` (row lookup by primary key). -/
def getUserByID (st : St) (userID : String) : Option User :=
  st.users.find? (fun u => decide (u.userID = userID))

/-- Modelled from the spec: `UserRepository.GetActiveTeamMembers` has no SQL
body under the sources (only a stub); the spec's Directory contract is
"lookup active members of a team excluding one id", which is also exactly
what the unit-test mock implements. -/
def getActiveTeamMembers (st : St) (teamName : String) (excludeUserID : String) : List User :=
  st.users.filter (fun u => decide (u.teamName = teamName ∧ u.isActive = true ∧ u.userID ≠ excludeUserID))

/-- Modelled from the spec: `UserRepository.GetUsersByIDs` is absent from the
sources; the spec's Directory contract is "lookup many users by id list",
over a users table keyed by id, so each stored user whose id occurs in the
list is returned once. -/
def getUsersByIDs (st : St) (userIDs : List String) : List User :=
  st.users.filter (fun u => decide (u.userID ∈ userIDs))

/-- Modelled from the spec: `UserRepository.DeactivateUsers` is absent from
the sources; the spec says "Mark every listed user as inactive". -/
def deactivateUsers (st : St) (userIDs : List String) : St :=
  { st with users := st.users.map (fun u => if u.userID ∈ userIDs then { u with isActive := false } else u) }

/-- Update the single PR row with the given id (SQL `UPDATE … WHERE pull_request_id = $n`). -/
def updatePR (st : St) (prID : String) (f : PullRequest → PullRequest) : St :=
  { st with prs := st.prs.map (fun pr => if pr.prID = prID then f pr else pr) }

/-- Embeds `PullRequestRepository.UpdateStatus`: when the new status is
MERGED the SQL also stamps `merged_at = CURRENT_TIMESTAMP` (the operation
time `now`). -/
def updateStatus (st : St) (prID : String) (status : String) (now : Nat) : St :=
  updatePR st prID (fun pr =>
    if status = "MERGED" then { pr with status := status, mergedAt := some now }
    else { pr with status := status })

/-- Embeds `PullRequestRepository.UpdateReviewers` (delete all reviewer rows
of the PR, then insert the given list). -/
def updateReviewers (st : St) (prID : String) (reviewers : List String) : St :=
  updatePR st prID (fun pr => { pr with assignedReviewers := reviewers })

/-- Embeds `PullRequestRepository.ReassignAuthor`. -/
def reassignAuthor (st : St) (prID : String) (newAuthorID : String) : St :=
  updatePR st prID (fun pr => { pr with authorID := newAuthorID })

/-- Embeds `PullRequestRepository.RemoveReviewer` (SQL `DELETE … WHERE
pull_request_id = $1 AND reviewer_id = $2`). -/
def removeReviewer (st : St) (prID : String) (reviewerID : String) : St :=
  updatePR st prID (fun pr => { pr with assignedReviewers := pr.assignedReviewers.filter (fun r => decide (r ≠ reviewerID)) })

/-- Embeds `PullRequestRepository.AddReviewer` (SQL `INSERT … ON CONFLICT DO
NOTHING` against the unique (pull_request_id, reviewer_id) constraint). -/
def addReviewer (st : St) (prID : String) (reviewerID : String) : St :=
  updatePR st prID (fun pr =>
    if reviewerID ∈ pr.assignedReviewers then pr
    else { pr with assignedReviewers := pr.assignedReviewers ++ [reviewerID] })

/-- Embeds `PullRequestRepository.GetOpenPRsByAuthors` (SQL `WHERE author_id
= ANY($1) AND status = 'OPEN'`). -/
def getOpenPRsByAuthors (st : St) (userIDs : List String) : List PullRequest :=
  st.prs.filter (fun pr => decide (pr.status = "OPEN" ∧ pr.authorID ∈ userIDs))

/-- The open PRs on which `reviewerID` is currently assigned (one group of
`PullRequestRepository.GetOpenPRsByReviewers`). -/
def openPRsReviewedBy (st : St) (reviewerID : String) : List PullRequest :=
  st.prs.filter (fun pr => decide (pr.status = "OPEN" ∧ reviewerID ∈ pr.assignedReviewers))

/-- One concrete enumeration of the `GetOpenPRsByReviewers` result map
(keys are the listed reviewers having at least one open PR).  Go iterates
this map in an unspecified order; the cascade below therefore takes the
enumeration as a parameter, and this canonical one is used to instantiate
concrete executions. -/
def reviewerGroupsCanonical (st : St) (userIDs : List String) : List (String × List PullRequest) :=
  userIDs.eraseDups.filterMap (fun rid =>
    let prs := openPRsReviewedBy st rid
    if prs = [] then none else some (rid, prs))

/-- One concrete enumeration of `remainingActive`: the currently-active
members of the team (`GetActiveTeamMembers(teamName, "")`) minus the ids
being deactivated.  Go builds this set as a map and iterates it in an
unspecified order; the cascade takes the enumeration as a parameter. -/
def remainingActive (st : St) (teamName : String) (userIDs : List String) : List String :=
  ((getActiveTeamMembers st teamName "").map (fun u => u.userID)).filter (fun id => decide (id ∉ userIDs))

/-- Embeds `selectRandomReviewers` (internal/service/pr_service.go): the
argument is the candidate list after `rand.Shuffle`; the Go code then takes
`min maxCount (length candidates)` entries from the front. -/
def selectRandomReviewers (shuffled : List User) (maxCount : Nat) : List String :=
  if shuffled.length = 0 then []
  else ((shuffled.take (min maxCount shuffled.length)).map (fun u => u.userID))

/-- Embeds `PullRequestService.CreatePR`.  `lookup` is the outcome of the
initial `s.prRepo.GetByID(prID)` storage call (`.ok` = the row / no row,
`.error` = an infrastructure failure); the Go line `existing, _ := …`
discards the error component, which the `match` below mirrors exactly.
`shuffled` stands for the candidate pool after `rand.Shuffle`. -/
def createPR (st : St) (lookup : Except String (Option PullRequest))
    (prID prName authorID : String) (now : Nat) (shuffled : List User) :
    Except Err (St × PullRequest) :=
  let existing : Option PullRequest :=
    match lookup with
    | .ok r => r
    | .error _ => none
  match existing with
  | some _ => .error .prExists
  | none =>
    match getUserByID st authorID with
    | none => .error .authorNotFound
    | some _author =>
      let reviewers := selectRandomReviewers shuffled 2
      let pr : PullRequest :=
        { prID := prID, prName := prName, authorID := authorID, status := "OPEN",
          assignedReviewers := reviewers, createdAt := some now, mergedAt := none }
      .ok ({ st with prs := st.prs ++ [pr] }, pr)

/-- Embeds `PullRequestService.MergePR`.  The already-MERGED branch returns
the stored row unchanged; otherwise the status is updated (stamping
`merged_at := now`) and the updated row re-read. -/
def mergePR (st : St) (prID : String) (now : Nat) : Except Err (St × PullRequest) :=
  match getPRByID st prID with
  | none => .error .prNotFound
  | some pr =>
    if pr.status = "MERGED" then .ok (st, pr)
    else
      let st1 := updateStatus st prID "MERGED" now
      match getPRByID st1 prID with
      | none => .error .prNotFound
      | some updated => .ok (st1, updated)

/-- Embeds `PullRequestService.ReassignReviewer`.  `k` stands for the
`rand.Intn(len(filteredCandidates))` draw (used modulo the pool size). -/
def reassignReviewer (st : St) (prID oldUserID : String) (k : Nat) :
    Except Err (St × PullRequest × String) :=
  match getPRByID st prID with
  | none => .error .prNotFound
  | some pr =>
    if pr.status = "MERGED" then .error .prMerged
    else if oldUserID ∉ pr.assignedReviewers then .error .notAssigned
    else
      match getUserByID st oldUserID with
      | none => .error .userNotFound
      | some oldUser =>
        let candidates := getActiveTeamMembers st oldUser.teamName oldUserID
        let filteredCandidates := candidates.filter (fun c => decide (c.userID ∉ pr.assignedReviewers))
        if filteredCandidates = [] then .error .noCandidate
        else
          let newReviewer := filteredCandidates.getD (k % filteredCandidates.length)
            ⟨"", "", "", false⟩
          let newReviewers := (pr.assignedReviewers.filter (fun r => decide (r ≠ oldUserID))) ++ [newReviewer.userID]
          let st1 := updateReviewers st prID newReviewers
          match getPRByID st1 prID with
          | none => .error .prNotFound
          | some updated => .ok (st1, updated, newReviewer.userID)

/-- One authorship-reassignment step of the cascade (the body of the
`for _, pr := range authorPRs` loop): when `activeList` is nonempty the
next round-robin candidate becomes the author and the shared counter
advances. -/
def authorStep (activeList : List String) (acc : St × Nat) (pr : PullRequest) : St × Nat :=
  if activeList = [] then acc
  else (reassignAuthor acc.1 pr.prID (activeList.getD (acc.2 % activeList.length) ""), acc.2 + 1)

/-- One reviewer-removal/replacement step of the cascade (the body of the
inner `for _, pr := range prs` loop): remove the deactivated reviewer, and
when the locally-tracked reviewer list drops below 2 and `activeList` is
nonempty, add the single next round-robin candidate unless it is already on
that local list (no further candidate is tried, and the PR's author is not
checked). -/
def reviewerStep (activeList : List String) (reviewerID : String)
    (acc : St × Nat) (pr : PullRequest) : St × Nat :=
  let st1 := removeReviewer acc.1 pr.prID reviewerID
  let updatedReviewers := pr.assignedReviewers.filter (fun r => decide (r ≠ reviewerID))
  if updatedReviewers.length < 2 ∧ activeList ≠ [] then
    let newReviewer := activeList.getD (acc.2 % activeList.length) ""
    if newReviewer ∈ updatedReviewers then (st1, acc.2)
    else (addReviewer st1 pr.prID newReviewer, acc.2 + 1)
  else (st1, acc.2)

/-- Embeds `TeamService.DeactivateTeamMembers`.  The validation order is the
Go order: empty-list no-op first, then team lookup, then user resolution by
`len(users) != len(userIDs)`, then team-membership check; the transaction
body then reassigns authors, removes/replaces reviewers with a shared
round-robin counter, and deactivates the listed users.  `activeList` and
`reviewerGroups` are the (order-unspecified) Go map enumerations of
`remainingActive` and of the `GetOpenPRsByReviewers` result. -/
def deactivateTeamMembers (st : St) (teamName : String) (userIDs : List String)
    (activeList : List String) (reviewerGroups : List (String × List PullRequest)) :
    Except Err (St × List String × Nat) :=
  if userIDs = [] then .ok (st, [], 0)
  else if teamName ∉ st.teams then .error .teamNotFound
  else
    let users := getUsersByIDs st userIDs
    if users.length ≠ userIDs.length then .error .userNotFound
    else if ¬ (∀ u ∈ users, u.teamName = teamName) then .error .invalidTeamMember
    else
      let authorPRs := getOpenPRsByAuthors st userIDs
      let acc1 := authorPRs.foldl (authorStep activeList) (st, 0)
      let acc2 := reviewerGroups.foldl
        (fun acc g => g.2.foldl (reviewerStep activeList g.1) acc) acc1
      let st3 := deactivateUsers acc2.1 userIDs
      .ok (st3, userIDs, acc2.2)

/-- The store state after an engine call: the new state on success, the
unchanged input state on a typed error (every error path returns before
committing any mutation). -/
def resultState {α : Type} (r : Except Err (St × α)) (fallback : St) : St :=
  match r with
  | .ok (s, _) => s
  | .error _ => fallback

/-- Decidable check that a PR id names an OPEN PR of the given state. -/
def isOpenIn (st : St) (prID : String) : Bool :=
  match getPRByID st prID with
  | some pr => pr.status = "OPEN"
  | none => false

/-! ### Concrete states used by counterexamples, failing inputs and witnesses -/

/-- Team `t` with active author `a` and active reviewer `r1`; one open PR
authored by `a` with reviewer set `[r1]`. -/
def stAuthorBug : St :=
  ⟨["t"],
   [⟨"a", "A", "t", true⟩, ⟨"r1", "R1", "t", true⟩],
   [⟨"pr", "PR", "a", "OPEN", ["r1"], some 0, none⟩]⟩

/-- Same shape with the PR named `pr1`, used for the cascade execution. -/
def stCascadeBug : St :=
  ⟨["t"],
   [⟨"a", "A", "t", true⟩, ⟨"r1", "R1", "t", true⟩],
   [⟨"pr1", "PR", "a", "OPEN", ["r1"], some 0, none⟩]⟩

/-- Team `t`: active users `x`, `y`, `r1`, inactive author `auth`; one open
PR authored by `auth` with reviewer set `[r1, x]`. -/
def stSkip : St :=
  ⟨["t"],
   [⟨"x", "X", "t", true⟩, ⟨"y", "Y", "t", true⟩, ⟨"r1", "R1", "t", true⟩,
    ⟨"auth", "AU", "t", false⟩],
   [⟨"pr2", "PR2", "auth", "OPEN", ["r1", "x"], some 0, none⟩]⟩

/-- The empty store. -/
def stEmpty : St := ⟨[], [], []⟩

/-- Team `t` with a single known active member `u1`. -/
def stDup : St := ⟨["t"], [⟨"u1", "U1", "t", true⟩], []⟩

/-- Team `t` with a single active user `a` and no PRs. -/
def stLookup : St := ⟨["t"], [⟨"a", "A", "t", true⟩], []⟩

/-- Team `t` with three active users, one inactive user, one open PR
(`p1`, author `a`, reviewers `b`,`c`) and one merged PR (`p2`). -/
def stDemo : St :=
  ⟨["t"],
   [⟨"a", "A", "t", true⟩, ⟨"b", "B", "t", true⟩, ⟨"c", "C", "t", true⟩,
    ⟨"d", "D", "t", false⟩],
   [⟨"p1", "P1", "a", "OPEN", ["b", "c"], some 1, none⟩,
    ⟨"p2", "P2", "a", "MERGED", ["b"], some 0, some 2⟩]⟩

/-! ### Store lemmas -/

theorem find?_prs_map_update (l : List PullRequest) (id q : String)
    (f : PullRequest → PullRequest) (hf : ∀ p, (f p).prID = p.prID) :
    (l.map (fun pr => if pr.prID = id then f pr else pr)).find? (fun pr => decide (pr.prID = q)) =
      (l.find? (fun pr => decide (pr.prID = q))).map (fun p => if p.prID = id then f p else p) := by
  induction l with
  | nil => rfl
  | cons hd tl ih =>
    have hpres : (if hd.prID = id then f hd else hd).prID = hd.prID := by
      by_cases hid : hd.prID = id
      · rw [if_pos hid, hf]
      · rw [if_neg hid]
    by_cases hq : hd.prID = q
    · simp only [List.map_cons, List.find?]
      rw [decide_eq_true (hpres.trans hq), decide_eq_true hq]
      rfl
    · simp only [List.map_cons, List.find?]
      rw [decide_eq_false (fun h => hq (hpres.symm.trans h)), decide_eq_false hq]
      exact ih

theorem getPRByID_updatePR (st : St) (id q : String)
    (f : PullRequest → PullRequest) (hf : ∀ p, (f p).prID = p.prID) :
    getPRByID (updatePR st id f) q =
      (getPRByID st q).map (fun p => if p.prID = id then f p else p) :=
  find?_prs_map_update st.prs id q f hf

theorem find?_eq_some_prID {l : List PullRequest} {q : String} {p : PullRequest}
    (h : l.find? (fun pr => decide (pr.prID = q)) = some p) : p.prID = q := by
  have h2 := List.find?_some h
  exact of_decide_eq_true h2

theorem getPRByID_updatePR_of_found {st : St} {id : String} {p : PullRequest}
    (f : PullRequest → PullRequest) (hf : ∀ p, (f p).prID = p.prID)
    (h : getPRByID st id = some p) :
    getPRByID (updatePR st id f) id = some (f p) := by
  rw [getPRByID_updatePR st id id f hf, h]
  show some (if p.prID = id then f p else p) = some (f p)
  rw [if_pos (find?_eq_some_prID h)]

theorem getPRByID_updatePR_of_ne {st : St} {id q : String}
    (f : PullRequest → PullRequest) (hf : ∀ p, (f p).prID = p.prID) (hne : q ≠ id) :
    getPRByID (updatePR st id f) q = getPRByID st q := by
  rw [getPRByID_updatePR st id q f hf]
  cases h : getPRByID st q with
  | none => rfl
  | some p =>
    show some (if p.prID = id then f p else p) = some p
    rw [if_neg]
    rw [find?_eq_some_prID h]
    exact hne

theorem getPRByID_deactivateUsers (st : St) (ids : List String) (q : String) :
    getPRByID (deactivateUsers st ids) q = getPRByID st q := rfl

theorem getD_mod_mem {α : Type} {l : List α} {d : α} (h : l ≠ []) (k : Nat) :
    l.getD (k % l.length) d ∈ l := by
  have hlen : 0 < l.length := List.length_pos.mpr h
  have hk : k % l.length < l.length := Nat.mod_lt _ hlen
  rw [List.getD_eq_getElem?_getD, List.getElem?_eq_getElem hk]
  exact List.getElem_mem hk

theorem selectRandomReviewers_length_le (shuffled : List User) (maxCount : Nat) :
    (selectRandomReviewers shuffled maxCount).length ≤ maxCount := by
  unfold selectRandomReviewers
  split
  · simp
  · rw [List.length_map, List.length_take]
    omega

theorem mem_selectRandomReviewers {r : String} {shuffled : List User} {maxCount : Nat}
    (h : r ∈ selectRandomReviewers shuffled maxCount) :
    ∃ u, u ∈ shuffled ∧ u.userID = r := by
  unfold selectRandomReviewers at h
  split at h
  · simp at h
  · obtain ⟨u, hu, hur⟩ := List.mem_map.mp h
    exact ⟨u, List.take_subset _ _ hu, hur⟩

theorem updateStatus_merged_found (st : St) (prID : String) {p : PullRequest} (now : Nat)
    (h : getPRByID st prID = some p) :
    getPRByID (updateStatus st prID "MERGED" now) prID =
      some { p with status := "MERGED", mergedAt := some now } := by
  unfold updateStatus
  rw [getPRByID_updatePR_of_found _ (fun q => by split <;> rfl) h]
  rw [if_pos rfl]

/-- C7: merge is idempotent — with the PR present, the first merge call
succeeds, a second call on the resulting state returns exactly the same
state and the same PR (identical `status` and `mergedAt`, no re-stamp of
`mergedAt`, no error), and an already-MERGED PR makes the first call a
no-op returning the stored row and the unchanged state. -/
theorem mergePR_idempotent (st : St) (prID : String) (t1 t2 : Nat) (pr : PullRequest)
    (hpr : getPRByID st prID = some pr) :
    ∃ st1 pr1, mergePR st prID t1 = .ok (st1, pr1) ∧
      mergePR st1 prID t2 = .ok (st1, pr1) ∧
      pr1.status = "MERGED" ∧
      (pr.status = "MERGED" → st1 = st ∧ pr1 = pr) := by
  by_cases h : pr.status = "MERGED"
  · refine ⟨st, pr, ?_, ?_, h, fun _ => ⟨rfl, rfl⟩⟩
    · unfold mergePR
      rw [hpr]
      simp [h]
    · unfold mergePR
      rw [hpr]
      simp [h]
  · have hfound := updateStatus_merged_found st prID t1 hpr
    refine ⟨updateStatus st prID "MERGED" t1,
      { pr with status := "MERGED", mergedAt := some t1 }, ?_, ?_, rfl, fun hm => absurd hm h⟩
    · unfold mergePR
      rw [hpr]
      simp only [h, if_false]
      rw [hfound]
    · unfold mergePR
      rw [hfound]
      simp

/-- Witness for `mergePR_idempotent` at the open PR `p1` of `stDemo`. -/
theorem mergePR_idempotent_witness :
    getPRByID stDemo "p1" = some ⟨"p1", "P1", "a", "OPEN", ["b", "c"], some 1, none⟩ ∧
    ∃ st1 pr1, mergePR stDemo "p1" 5 = .ok (st1, pr1) ∧
      mergePR st1 "p1" 6 = .ok (st1, pr1) ∧
      pr1.status = "MERGED" ∧
      ((⟨"p1", "P1", "a", "OPEN", ["b", "c"], some 1, none⟩ : PullRequest).status = "MERGED" →
        st1 = stDemo ∧ pr1 = ⟨"p1", "P1", "a", "OPEN", ["b", "c"], some 1, none⟩) :=
  ⟨rfl, mergePR_idempotent stDemo "p1" 5 6 _ rfl⟩

/-- C8: single reviewer reassignment on a MERGED PR always fails with the
`ErrPRMerged` invalid-state error, for every old-reviewer argument and
every random draw, and the PR is unchanged (the error is returned before
any mutation, so the store state is the unchanged input state). -/
theorem reassignReviewer_merged_fails (st : St) (prID oldUserID : String) (k : Nat)
    (pr : PullRequest) (hpr : getPRByID st prID = some pr) (hm : pr.status = "MERGED") :
    reassignReviewer st prID oldUserID k = .error .prMerged ∧
    getPRByID (resultState (reassignReviewer st prID oldUserID k) st) prID = some pr := by
  have h1 : reassignReviewer st prID oldUserID k = .error .prMerged := by
    unfold reassignReviewer
    rw [hpr]
    simp [hm]
  refine ⟨h1, ?_⟩
  rw [h1]
  exact hpr

/-- Witness for `reassignReviewer_merged_fails` at the merged PR `p2` of `stDemo`. -/
theorem reassignReviewer_merged_fails_witness :
    getPRByID stDemo "p2" = some ⟨"p2", "P2", "a", "MERGED", ["b"], some 0, some 2⟩ ∧
    reassignReviewer stDemo "p2" "b" 0 = .error .prMerged ∧
    getPRByID (resultState (reassignReviewer stDemo "p2" "b" 0) stDemo) "p2" =
      some ⟨"p2", "P2", "a", "MERGED", ["b"], some 0, some 2⟩ :=
  ⟨rfl, reassignReviewer_merged_fails stDemo "p2" "b" 0 _ rfl rfl⟩

/-- C3 counterexample: with an unknown team name and the empty id list the
cascade does NOT fail with `TeamNotFound` — the empty-list no-op check runs
before the team lookup, so the call succeeds with zero deactivations and
zero reassignments even though the team does not exist. -/
theorem deactivate_empty_unknown_team_no_error :
    "ghost" ∉ stEmpty.teams ∧
    deactivateTeamMembers stEmpty "ghost" [] [] [] = .ok (stEmpty, [], 0) ∧
    deactivateTeamMembers stEmpty "ghost" [] [] [] ≠ .error .teamNotFound := by
  refine ⟨by decide, rfl, ?_⟩
  intro h
  rw [show deactivateTeamMembers stEmpty "ghost" [] [] [] = .ok (stEmpty, [], 0) from rfl] at h
  exact Except.noConfusion h

/-- C3 (amended): a NON-empty id list with an unknown team fails with
`TeamNotFound` before any mutation, and the empty id list is a valid no-op
returning zero deactivations and zero reassignments regardless of whether
the team exists. -/
theorem deactivate_preconditions (st : St) (teamName : String)
    (userIDs activeList : List String) (reviewerGroups : List (String × List PullRequest)) :
    (userIDs ≠ [] → teamName ∉ st.teams →
      deactivateTeamMembers st teamName userIDs activeList reviewerGroups = .error .teamNotFound) ∧
    (deactivateTeamMembers st teamName [] activeList reviewerGroups = .ok (st, [], 0)) := by
  constructor
  · intro hne hteam
    unfold deactivateTeamMembers
    rw [if_neg hne, if_pos hteam]
  · unfold deactivateTeamMembers
    rw [if_pos rfl]

/-- Witness for `deactivate_preconditions`: unknown team `ghost` on the
empty store with a non-empty id list, and the empty-list no-op. -/
theorem deactivate_preconditions_witness :
    deactivateTeamMembers stEmpty "ghost" ["u"] [] [] = .error .teamNotFound ∧
    deactivateTeamMembers stEmpty "ghost" [] [] [] = .ok (stEmpty, [], 0) :=
  ⟨(deactivate_preconditions stEmpty "ghost" ["u"] [] []).1 (by decide) (by decide),
   (deactivate_preconditions stEmpty "ghost" [] [] []).2⟩

/-- C10 counterexample: when the `GetByID` existence check fails at the
storage layer (`.error "connection refused"`), `CreatePR` does not return
the failure — it proceeds and creates the PR, because the Go code discards
the error component of that call (`existing, _ := s.prRepo.GetByID(prID)`). -/
theorem createPR_swallows_lookup_failure :
    ∃ st1 pr, createPR stLookup (.error "connection refused") "p1" "N" "a" 7 [] = .ok (st1, pr) ∧
      pr.prID = "p1" ∧ pr.status = "OPEN" :=
  ⟨_, _, rfl, rfl, rfl⟩

/-- C10 (amended): the storage failure from the existence check is
discarded, never propagated: `CreatePR` behaves on a failed lookup exactly
as it does when the lookup reports the PR id absent. -/
theorem createPR_lookup_failure_ignored (st : St) (msg prID prName authorID : String)
    (now : Nat) (shuffled : List User) :
    createPR st (.error msg) prID prName authorID now shuffled =
      createPR st (.ok none) prID prName authorID now shuffled := rfl

/-- C1: the author-never-reviews-own-PR invariant is violated by the code.
Reassignment: in `stAuthorBug` (author `a`, sole reviewer `r1`, both active
in team `t`), reassigning `r1` picks the PR's own author `a` as the new
reviewer — `ReassignReviewer` filters candidates only against the current
reviewer set, never against the author.  Cascade: in `stCascadeBug`,
deactivating `r1` removes it and adds the only remaining active member —
the PR's own author `a` — as replacement reviewer; here `remainingActive`
and the reviewer grouping are singletons, so these are the only possible
Go map enumerations.  `DeactivateTeamMembers` checks the round-robin pick
only against the current reviewer set, never against the author. -/
theorem author_in_own_reviewer_set_bug :
    (∃ st1 pr1, reassignReviewer stAuthorBug "pr" "r1" 0 = .ok (st1, pr1, "a") ∧
      pr1.authorID = "a" ∧ pr1.authorID ∈ pr1.assignedReviewers) ∧
    (∃ st2 pr2, deactivateTeamMembers stCascadeBug "t" ["r1"]
        (remainingActive stCascadeBug "t" ["r1"]) (reviewerGroupsCanonical stCascadeBug ["r1"]) =
        .ok (st2, ["r1"], 1) ∧
      getPRByID st2 "pr1" = some pr2 ∧ pr2.authorID ∈ pr2.assignedReviewers) :=
  ⟨⟨_, _, rfl, rfl, by decide⟩, ⟨_, _, rfl, rfl, by decide⟩⟩

/-- C2 counterexample: in `stSkip`, after removing deactivated reviewer
`r1` the open PR `pr2` keeps only reviewer `x`; `remainingActive` is
`[x, y]` and `y` is an eligible replacement (not on the PR, not the author
`auth`), yet the cascade adds nobody and reports zero reassignments: the
round-robin pick `x` is already assigned and the code does not try any
further candidate. -/
theorem cascade_skips_eligible_candidate :
    remainingActive stSkip "t" ["r1"] = ["x", "y"] ∧
    ("y" ∈ remainingActive stSkip "t" ["r1"] ∧ "y" ≠ "auth" ∧
      ("y" : String) ∉ (["x"] : List String)) ∧
    ∃ st1 pr, deactivateTeamMembers stSkip "t" ["r1"] (remainingActive stSkip "t" ["r1"])
        (reviewerGroupsCanonical stSkip ["r1"]) = .ok (st1, ["r1"], 0) ∧
      getPRByID st1 "pr2" = some pr ∧ pr.authorID = "auth" ∧
      pr.assignedReviewers = ["x"] ∧ pr.assignedReviewers.length < 2 :=
  ⟨rfl, by decide, _, _, rfl, rfl, rfl, rfl, by decide⟩

theorem not_mem_filter_ne_self (l : List String) (rid : String) :
    rid ∉ l.filter (fun r => decide (r ≠ rid)) := by
  intro hmem
  have h := List.of_mem_filter hmem
  simp at h

theorem ne_append_single (l : List String) (a : String) : l ≠ l ++ [a] := by
  intro h
  have := congrArg List.length h
  simp at this

/-- C2 (amended): the removal/replacement step the cascade applies to every
processed `(deactivated reviewer, open-PR snapshot)` pair — given that the
stored row agrees with the snapshot — removes the deactivated reviewer,
and then adds AT MOST the single next round-robin candidate: the candidate
is added exactly when the post-removal reviewer list has fewer than 2
members, `remainingActive` is nonempty, and that one candidate is not
already on the list.  No other candidate is ever tried (so an eligible
member elsewhere in `remainingActive` does not get added), the PR's author
is not excluded (no author condition appears in the characterisation), and
an added reviewer is never a user already on the post-removal list. -/
theorem reviewerStep_spec (activeList : List String) (rid : String) (st : St) (cnt : Nat)
    (pr p : PullRequest)
    (hsnap : getPRByID st pr.prID = some p)
    (hagree : p.assignedReviewers = pr.assignedReviewers)
    (hrid : rid ∉ activeList) :
    ∃ q, getPRByID (reviewerStep activeList rid (st, cnt) pr).1 pr.prID = some q ∧
      rid ∉ q.assignedReviewers ∧
      (q.assignedReviewers = pr.assignedReviewers.filter (fun r => decide (r ≠ rid)) ∨
        q.assignedReviewers = pr.assignedReviewers.filter (fun r => decide (r ≠ rid)) ++
          [activeList.getD (cnt % activeList.length) ""]) ∧
      (q.assignedReviewers = pr.assignedReviewers.filter (fun r => decide (r ≠ rid)) ++
          [activeList.getD (cnt % activeList.length) ""] ↔
        ((pr.assignedReviewers.filter (fun r => decide (r ≠ rid))).length < 2 ∧ activeList ≠ [] ∧
          activeList.getD (cnt % activeList.length) "" ∉
            pr.assignedReviewers.filter (fun r => decide (r ≠ rid)))) ∧
      (reviewerStep activeList rid (st, cnt) pr).2 =
        (if ((pr.assignedReviewers.filter (fun r => decide (r ≠ rid))).length < 2 ∧ activeList ≠ [] ∧
            activeList.getD (cnt % activeList.length) "" ∉
              pr.assignedReviewers.filter (fun r => decide (r ≠ rid)))
          then cnt + 1 else cnt) := by
  have hrm : getPRByID (removeReviewer st pr.prID rid) pr.prID =
      some { p with assignedReviewers := pr.assignedReviewers.filter (fun r => decide (r ≠ rid)) } := by
    unfold removeReviewer
    rw [getPRByID_updatePR_of_found
      (fun x => { x with assignedReviewers := x.assignedReviewers.filter (fun r => decide (r ≠ rid)) })
      (fun x => rfl) hsnap, hagree]
  set updated := pr.assignedReviewers.filter (fun r => decide (r ≠ rid)) with hupd
  set pick := activeList.getD (cnt % activeList.length) "" with hpick
  have hnotmem : rid ∉ updated := not_mem_filter_ne_self _ _
  by_cases hcond : updated.length < 2 ∧ activeList ≠ []
  · by_cases hin : pick ∈ updated
    · refine ⟨{ p with assignedReviewers := updated }, ?_, hnotmem, Or.inl rfl, ?_, ?_⟩
      · show getPRByID (reviewerStep activeList rid (st, cnt) pr).1 pr.prID = _
        unfold reviewerStep
        rw [if_pos hcond, if_pos hin]
        exact hrm
      · constructor
        · intro h
          exact absurd h (ne_append_single updated pick)
        · intro h
          exact absurd hin h.2.2
      · show (reviewerStep activeList rid (st, cnt) pr).2 = _
        unfold reviewerStep
        rw [if_pos hcond, if_pos hin, if_neg (fun h => h.2.2 hin)]
    · have hpickal : pick ∈ activeList := getD_mod_mem hcond.2 cnt
      refine ⟨{ p with assignedReviewers := updated ++ [pick] }, ?_, ?_, Or.inr rfl,
        ⟨fun _ => ⟨hcond.1, hcond.2, hin⟩, fun _ => rfl⟩, ?_⟩
      · show getPRByID (reviewerStep activeList rid (st, cnt) pr).1 pr.prID = _
        unfold reviewerStep
        rw [if_pos hcond, if_neg hin]
        unfold addReviewer
        rw [getPRByID_updatePR_of_found
          (fun x => if pick ∈ x.assignedReviewers then x
            else { x with assignedReviewers := x.assignedReviewers ++ [pick] })
          (fun x => by dsimp only; split <;> rfl) hrm]
        show some (if pick ∈ updated then _ else _) = _
        rw [if_neg hin]
      · intro hmem
        rcases List.mem_append.mp hmem with h | h
        · exact hnotmem h
        · rw [List.mem_singleton.mp h] at hrid
          exact hrid hpickal
      · show (reviewerStep activeList rid (st, cnt) pr).2 = _
        unfold reviewerStep
        rw [if_pos hcond, if_neg hin, if_pos ⟨hcond.1, hcond.2, hin⟩]
  · refine ⟨{ p with assignedReviewers := updated }, ?_, hnotmem, Or.inl rfl, ?_, ?_⟩
    · show getPRByID (reviewerStep activeList rid (st, cnt) pr).1 pr.prID = _
      unfold reviewerStep
      rw [if_neg hcond]
      exact hrm
    · constructor
      · intro h
        exact absurd h (ne_append_single updated pick)
      · intro h
        exact absurd ⟨h.1, h.2.1⟩ hcond
    · show (reviewerStep activeList rid (st, cnt) pr).2 = _
      unfold reviewerStep
      rw [if_neg hcond, if_neg (fun h => hcond ⟨h.1, h.2.1⟩)]

/-- Witness for `reviewerStep_spec` at the cascade step of `stCascadeBug`. -/
theorem reviewerStep_spec_witness :
    getPRByID stCascadeBug "pr1" = some ⟨"pr1", "PR", "a", "OPEN", ["r1"], some 0, none⟩ ∧
    ("r1" : String) ∉ (["a"] : List String) ∧
    ∃ q, getPRByID (reviewerStep ["a"] "r1" (stCascadeBug, 0)
        ⟨"pr1", "PR", "a", "OPEN", ["r1"], some 0, none⟩).1 "pr1" = some q ∧
      ("r1" : String) ∉ q.assignedReviewers ∧
      (q.assignedReviewers = (["r1"] : List String).filter (fun r => decide (r ≠ "r1")) ∨
        q.assignedReviewers = (["r1"] : List String).filter (fun r => decide (r ≠ "r1")) ++
          [(["a"] : List String).getD (0 % (["a"] : List String).length) ""]) :=
  ⟨rfl, by decide,
    match reviewerStep_spec ["a"] "r1" stCascadeBug 0
      ⟨"pr1", "PR", "a", "OPEN", ["r1"], some 0, none⟩
      ⟨"pr1", "PR", "a", "OPEN", ["r1"], some 0, none⟩ rfl rfl (by decide) with
    | ⟨q, h1, h2, h3, _, _⟩ => ⟨q, h1, h2, h3⟩⟩

/-- C4 counterexample: in `stDup` every id in the list `[u1, u1]` resolves
to the known user `u1` of team `t`, yet the cascade fails with
`UserNotFound`: the id list contains a duplicate, so the looked-up user
list (one row per matching user) is shorter than the id list and the
`len(users) != len(userIDs)` check misfires. -/
theorem deactivate_duplicate_ids_userNotFound :
    "t" ∈ stDup.teams ∧
    (∀ id ∈ (["u1", "u1"] : List String), ∃ u, u ∈ stDup.users ∧ u.userID = id ∧ u.teamName = "t") ∧
    deactivateTeamMembers stDup "t" ["u1", "u1"] [] [] = .error .userNotFound :=
  ⟨by decide, by decide, rfl⟩

theorem getUsersByIDs_length_of_resolved (st : St) (ids : List String)
    (h1 : ids.Nodup) (h2 : (st.users.map (fun u => u.userID)).Nodup)
    (h3 : ∀ id ∈ ids, ∃ u, u ∈ st.users ∧ u.userID = id) :
    (getUsersByIDs st ids).length = ids.length := by
  have hmf : (st.users.map (fun u => u.userID)).filter (fun id => decide (id ∈ ids)) =
      (getUsersByIDs st ids).map (fun u => u.userID) :=
    List.filter_map (fun u => u.userID) st.users
  have hnd : ((st.users.map (fun u => u.userID)).filter (fun id => decide (id ∈ ids))).Nodup :=
    h2.filter _
  have hmem : ∀ a, a ∈ (st.users.map (fun u => u.userID)).filter (fun id => decide (id ∈ ids)) ↔
      a ∈ ids := by
    intro a
    constructor
    · intro h
      exact of_decide_eq_true (List.mem_filter.mp h).2
    · intro h
      refine List.mem_filter.mpr ⟨?_, decide_eq_true h⟩
      obtain ⟨u, hu, hua⟩ := h3 a h
      exact List.mem_map.mpr ⟨u, hu, hua⟩
  have hperm := (List.perm_ext_iff_of_nodup hnd h1).mpr hmem
  have := hperm.length_eq
  rw [hmf] at this
  rw [List.length_map] at this
  exact this

/-- C4 (amended): with an existing team and a non-empty id list, the
cascade fails with `UserNotFound` exactly when the number of users
resolved from the id list differs from the length of the list; in
particular a non-empty DUPLICATE-FREE list in which every id resolves to a
known user never fails with `UserNotFound` (a duplicate id in the list,
however, makes the length check misfire even when every id resolves). -/
theorem deactivate_userNotFound_characterization (st : St) (teamName : String)
    (userIDs activeList : List String) (reviewerGroups : List (String × List PullRequest))
    (hteam : teamName ∈ st.teams) (hne : userIDs ≠ []) :
    (deactivateTeamMembers st teamName userIDs activeList reviewerGroups = .error .userNotFound ↔
      (getUsersByIDs st userIDs).length ≠ userIDs.length) ∧
    (userIDs.Nodup → (st.users.map (fun u => u.userID)).Nodup →
      (∀ id ∈ userIDs, ∃ u, u ∈ st.users ∧ u.userID = id) →
      deactivateTeamMembers st teamName userIDs activeList reviewerGroups ≠
        .error .userNotFound) := by
  have hmain : deactivateTeamMembers st teamName userIDs activeList reviewerGroups =
      .error .userNotFound ↔ (getUsersByIDs st userIDs).length ≠ userIDs.length := by
    unfold deactivateTeamMembers
    rw [if_neg hne, if_neg (fun h => h hteam)]
    constructor
    · intro h
      by_cases hlen : (getUsersByIDs st userIDs).length ≠ userIDs.length
      · exact hlen
      · rw [if_neg hlen] at h
        split at h
        · exact absurd (Except.error.inj h) (by intro hc; exact Err.noConfusion hc)
        · exact Except.noConfusion h
    · intro h
      rw [if_pos h]
  refine ⟨hmain, ?_⟩
  intro hn1 hn2 hres h
  exact absurd (getUsersByIDs_length_of_resolved st userIDs hn1 hn2 hres) (hmain.mp h)

/-- Witness for `deactivate_userNotFound_characterization` on `stDup` with
the duplicate-free resolvable list `[u1]`. -/
theorem deactivate_userNotFound_characterization_witness :
    "t" ∈ stDup.teams ∧ (["u1"] : List String) ≠ [] ∧
    (deactivateTeamMembers stDup "t" ["u1"] [] [] = .error .userNotFound ↔
      (getUsersByIDs stDup ["u1"]).length ≠ (["u1"] : List String).length) ∧
    ((["u1"] : List String).Nodup → (stDup.users.map (fun u => u.userID)).Nodup →
      (∀ id ∈ (["u1"] : List String), ∃ u, u ∈ stDup.users ∧ u.userID = id) →
      deactivateTeamMembers stDup "t" ["u1"] [] [] ≠ .error .userNotFound) :=
  ⟨by decide, by decide,
    deactivate_userNotFound_characterization stDup "t" ["u1"] [] [] (by decide) (by decide)⟩

/-- C5: every PR returned by `CreatePR` (under a healthy existence lookup,
a fresh id, a resolvable author, and any shuffle of the deterministic
candidate pool) has status OPEN, a reviewer set of size at most 2 that
never contains the author and whose every member is an active user of the
author's team; an empty candidate pool still succeeds, with zero
reviewers. -/
theorem createPR_reviewer_set_ok (st : St) (prID prName authorID : String) (now : Nat)
    (shuffled : List User) (author : User)
    (hfresh : getPRByID st prID = none)
    (hauthor : getUserByID st authorID = some author)
    (hperm : shuffled.Perm (getActiveTeamMembers st author.teamName authorID)) :
    ∃ st1 pr, createPR st (.ok (getPRByID st prID)) prID prName authorID now shuffled =
        .ok (st1, pr) ∧
      pr.status = "OPEN" ∧
      pr.authorID = authorID ∧
      pr.mergedAt = none ∧
      authorID ∉ pr.assignedReviewers ∧
      pr.assignedReviewers.length ≤ 2 ∧
      (∀ r ∈ pr.assignedReviewers, ∃ u, u ∈ st.users ∧ u.userID = r ∧
        u.isActive = true ∧ u.teamName = author.teamName) ∧
      (getActiveTeamMembers st author.teamName authorID = [] → pr.assignedReviewers = []) := by
  have hmem_cand : ∀ r, r ∈ selectRandomReviewers shuffled 2 →
      ∃ u, u ∈ st.users ∧ u.userID = r ∧ u.isActive = true ∧
        u.teamName = author.teamName ∧ u.userID ≠ authorID := by
    intro r hr
    obtain ⟨u, hu, hur⟩ := mem_selectRandomReviewers hr
    have hu2 : u ∈ getActiveTeamMembers st author.teamName authorID := hperm.mem_iff.mp hu
    have hu3 := List.mem_filter.mp hu2
    have hu4 := of_decide_eq_true hu3.2
    exact ⟨u, hu3.1, hur, hu4.2.1, hu4.1, hu4.2.2⟩
  refine ⟨{ st with prs := st.prs ++
      [⟨prID, prName, authorID, "OPEN", selectRandomReviewers shuffled 2, some now, none⟩] },
    ⟨prID, prName, authorID, "OPEN", selectRandomReviewers shuffled 2, some now, none⟩,
    ?_, rfl, rfl, rfl, ?_, selectRandomReviewers_length_le shuffled 2, ?_, ?_⟩
  · simp only [createPR, hfresh, hauthor]
  · intro hmem
    obtain ⟨u, _, huid, _, _, hne⟩ := hmem_cand authorID hmem
    exact hne huid
  · intro r hr
    obtain ⟨u, h1, h2, h3, h4, _⟩ := hmem_cand r hr
    exact ⟨u, h1, h2, h3, h4⟩
  · intro hc
    rw [hc] at hperm
    rw [hperm.eq_nil]
    rfl

/-- Witness for `createPR_reviewer_set_ok` on `stDemo` with author `a` and
the shuffled candidate pool `[c, b]`. -/
theorem createPR_reviewer_set_ok_witness :
    getPRByID stDemo "p3" = none ∧
    getUserByID stDemo "a" = some ⟨"a", "A", "t", true⟩ ∧
    ∃ st1 pr, createPR stDemo (.ok (getPRByID stDemo "p3")) "p3" "P3" "a" 9
        [⟨"c", "C", "t", true⟩, ⟨"b", "B", "t", true⟩] = .ok (st1, pr) ∧
      pr.status = "OPEN" ∧
      pr.authorID = "a" ∧
      pr.mergedAt = none ∧
      ("a" : String) ∉ pr.assignedReviewers ∧
      pr.assignedReviewers.length ≤ 2 ∧
      (∀ r ∈ pr.assignedReviewers, ∃ u, u ∈ stDemo.users ∧ u.userID = r ∧
        u.isActive = true ∧ u.teamName = "t") ∧
      (getActiveTeamMembers stDemo "t" "a" = [] → pr.assignedReviewers = []) :=
  ⟨rfl, rfl, createPR_reviewer_set_ok stDemo "p3" "P3" "a" 9
    [⟨"c", "C", "t", true⟩, ⟨"b", "B", "t", true⟩] ⟨"a", "A", "t", true⟩ rfl rfl (by decide)⟩

/-- C6: whenever single reviewer reassignment succeeds, the returned new
reviewer id differs from the old one, the old id is absent from the
post-reassignment reviewer set, the new id is present in it, the new
reviewer is an active member of the old reviewer's team who was not
previously on the PR; and (given the PR exists, is not merged, and the old
reviewer is assigned and known) the call fails with
`ErrNoCandidate` exactly when the filtered candidate pool is empty. -/
theorem reassignReviewer_ok (st : St) (prID oldUserID : String) (k : Nat)
    (pr : PullRequest) (oldUser : User)
    (hpr : getPRByID st prID = some pr)
    (hopen : ¬ pr.status = "MERGED")
    (hass : oldUserID ∈ pr.assignedReviewers)
    (hold : getUserByID st oldUserID = some oldUser) :
    ((getActiveTeamMembers st oldUser.teamName oldUserID).filter
        (fun c => decide (c.userID ∉ pr.assignedReviewers)) = [] →
      reassignReviewer st prID oldUserID k = .error .noCandidate) ∧
    ((getActiveTeamMembers st oldUser.teamName oldUserID).filter
        (fun c => decide (c.userID ∉ pr.assignedReviewers)) ≠ [] →
      ∃ st1 updated newID, reassignReviewer st prID oldUserID k = .ok (st1, updated, newID) ∧
        newID ≠ oldUserID ∧
        oldUserID ∉ updated.assignedReviewers ∧
        newID ∈ updated.assignedReviewers ∧
        newID ∉ pr.assignedReviewers ∧
        (∃ u, u ∈ st.users ∧ u.userID = newID ∧ u.isActive = true ∧
          u.teamName = oldUser.teamName)) := by
  have hred : reassignReviewer st prID oldUserID k =
      (if (getActiveTeamMembers st oldUser.teamName oldUserID).filter
          (fun c => decide (c.userID ∉ pr.assignedReviewers)) = [] then .error .noCandidate
        else
          let newReviewer := ((getActiveTeamMembers st oldUser.teamName oldUserID).filter
            (fun c => decide (c.userID ∉ pr.assignedReviewers))).getD
              (k % ((getActiveTeamMembers st oldUser.teamName oldUserID).filter
                (fun c => decide (c.userID ∉ pr.assignedReviewers))).length) ⟨"", "", "", false⟩
          let newReviewers := (pr.assignedReviewers.filter (fun r => decide (r ≠ oldUserID))) ++
            [newReviewer.userID]
          let st1 := updateReviewers st prID newReviewers
          match getPRByID st1 prID with
          | none => .error .prNotFound
          | some updated => .ok (st1, updated, newReviewer.userID)) := by
    unfold reassignReviewer
    rw [hpr]
    simp only [hopen, if_false, hold]
    rw [if_neg (show ¬ oldUserID ∉ pr.assignedReviewers from fun h => h hass)]
  constructor
  · intro hf
    rw [hred, if_pos hf]
  · intro hf
    set filtered := (getActiveTeamMembers st oldUser.teamName oldUserID).filter
      (fun c => decide (c.userID ∉ pr.assignedReviewers)) with hfiltered
    set newReviewer := filtered.getD (k % filtered.length) ⟨"", "", "", false⟩ with hnewR
    have hmemf : newReviewer ∈ filtered := getD_mod_mem hf k
    have hmemc := List.mem_filter.mp hmemf
    have hnotin : newReviewer.userID ∉ pr.assignedReviewers := of_decide_eq_true hmemc.2
    have hcand := List.mem_filter.mp hmemc.1
    have hcand2 := of_decide_eq_true hcand.2
    have hneold : newReviewer.userID ≠ oldUserID := fun h => hnotin (h ▸ hass)
    set newRevs := (pr.assignedReviewers.filter (fun r => decide (r ≠ oldUserID))) ++
      [newReviewer.userID] with hnewRevs
    have hup : getPRByID (updateReviewers st prID newRevs) prID =
        some { pr with assignedReviewers := newRevs } := by
      unfold updateReviewers
      rw [getPRByID_updatePR_of_found (fun x => { x with assignedReviewers := newRevs })
        (fun x => rfl) hpr]
    refine ⟨updateReviewers st prID newRevs, { pr with assignedReviewers := newRevs },
      newReviewer.userID, ?_, hneold, ?_, ?_, hnotin,
      ⟨newReviewer, hcand.1, rfl, hcand2.2.1, hcand2.1⟩⟩
    · rw [hred, if_neg hf]
      show (match getPRByID (updateReviewers st prID newRevs) prID with
        | none => Except.error Err.prNotFound
        | some updated => Except.ok (updateReviewers st prID newRevs, updated, newReviewer.userID)) =
          Except.ok (updateReviewers st prID newRevs, { pr with assignedReviewers := newRevs },
            newReviewer.userID)
      rw [hup]
    · show oldUserID ∉ newRevs
      intro hmem
      rcases List.mem_append.mp hmem with h | h
      · exact not_mem_filter_ne_self _ _ h
      · exact hneold (List.mem_singleton.mp h).symm
    · show newReviewer.userID ∈ newRevs
      exact List.mem_append.mpr (Or.inr (List.mem_singleton.mpr rfl))

/-- Witness for `reassignReviewer_ok` on `stDemo`, PR `p1`, old reviewer `b`. -/
theorem reassignReviewer_ok_witness :
    getPRByID stDemo "p1" = some ⟨"p1", "P1", "a", "OPEN", ["b", "c"], some 1, none⟩ ∧
    (((getActiveTeamMembers stDemo "t" "b").filter
        (fun c => decide (c.userID ∉
          (⟨"p1", "P1", "a", "OPEN", ["b", "c"], some 1, none⟩ : PullRequest).assignedReviewers)) = [] →
      reassignReviewer stDemo "p1" "b" 0 = .error .noCandidate) ∧
    ((getActiveTeamMembers stDemo "t" "b").filter
        (fun c => decide (c.userID ∉
          (⟨"p1", "P1", "a", "OPEN", ["b", "c"], some 1, none⟩ : PullRequest).assignedReviewers)) ≠ [] →
      ∃ st1 updated newID, reassignReviewer stDemo "p1" "b" 0 = .ok (st1, updated, newID) ∧
        newID ≠ "b" ∧
        ("b" : String) ∉ updated.assignedReviewers ∧
        newID ∈ updated.assignedReviewers ∧
        newID ∉ (⟨"p1", "P1", "a", "OPEN", ["b", "c"], some 1, none⟩ : PullRequest).assignedReviewers ∧
        (∃ u, u ∈ stDemo.users ∧ u.userID = newID ∧ u.isActive = true ∧ u.teamName = "t"))) :=
  ⟨rfl, reassignReviewer_ok stDemo "p1" "b" 0
    ⟨"p1", "P1", "a", "OPEN", ["b", "c"], some 1, none⟩ ⟨"b", "B", "t", true⟩
    rfl (by decide) (by decide) rfl⟩

theorem reviewerStep_eq (activeList : List String) (rid : String) (acc : St × Nat)
    (pr : PullRequest) :
    reviewerStep activeList rid acc pr =
      if (pr.assignedReviewers.filter (fun r => decide (r ≠ rid))).length < 2 ∧ activeList ≠ [] then
        (if activeList.getD (acc.2 % activeList.length) "" ∈
            pr.assignedReviewers.filter (fun r => decide (r ≠ rid)) then
          (removeReviewer acc.1 pr.prID rid, acc.2)
        else
          (addReviewer (removeReviewer acc.1 pr.prID rid) pr.prID
            (activeList.getD (acc.2 % activeList.length) ""), acc.2 + 1))
      else (removeReviewer acc.1 pr.prID rid, acc.2) := rfl

theorem authorStep_preserves (activeList : List String) (acc : St × Nat) (pr : PullRequest)
    (q : String) (h : pr.prID ≠ q) :
    getPRByID (authorStep activeList acc pr).1 q = getPRByID acc.1 q := by
  unfold authorStep
  split
  · rfl
  · show getPRByID (reassignAuthor acc.1 pr.prID _) q = _
    unfold reassignAuthor
    exact getPRByID_updatePR_of_ne
      (fun x => { x with authorID := activeList.getD (acc.2 % activeList.length) "" })
      (fun x => rfl) (fun he => h he.symm)

theorem reviewerStep_preserves (activeList : List String) (rid : String) (acc : St × Nat)
    (pr : PullRequest) (q : String) (h : pr.prID ≠ q) :
    getPRByID (reviewerStep activeList rid acc pr).1 q = getPRByID acc.1 q := by
  have hrm : getPRByID (removeReviewer acc.1 pr.prID rid) q = getPRByID acc.1 q := by
    unfold removeReviewer
    exact getPRByID_updatePR_of_ne
      (fun x => { x with assignedReviewers := x.assignedReviewers.filter (fun r => decide (r ≠ rid)) })
      (fun x => rfl) (fun he => h he.symm)
  rw [reviewerStep_eq]
  split
  · split
    · exact hrm
    · show getPRByID (addReviewer (removeReviewer acc.1 pr.prID rid) pr.prID _) q = _
      unfold addReviewer
      rw [getPRByID_updatePR_of_ne
        (fun x => if activeList.getD (acc.2 % activeList.length) "" ∈ x.assignedReviewers then x
          else { x with assignedReviewers :=
            x.assignedReviewers ++ [activeList.getD (acc.2 % activeList.length) ""] })
        (fun x => by dsimp only; split <;> rfl) (fun he => h he.symm)]
      exact hrm
  · exact hrm

theorem foldl_authorStep_preserves (activeList : List String) (l : List PullRequest)
    (acc : St × Nat) (q : String) (h : ∀ pr ∈ l, pr.prID ≠ q) :
    getPRByID (l.foldl (authorStep activeList) acc).1 q = getPRByID acc.1 q := by
  induction l generalizing acc with
  | nil => rfl
  | cons hd tl ih =>
    rw [List.foldl_cons, ih _ (fun pr hpr => h pr (List.mem_cons_of_mem hd hpr)),
      authorStep_preserves activeList acc hd q (h hd (List.mem_cons_self hd tl))]

theorem foldl_reviewerStep_preserves (activeList : List String) (rid : String)
    (l : List PullRequest) (acc : St × Nat) (q : String) (h : ∀ pr ∈ l, pr.prID ≠ q) :
    getPRByID (l.foldl (reviewerStep activeList rid) acc).1 q = getPRByID acc.1 q := by
  induction l generalizing acc with
  | nil => rfl
  | cons hd tl ih =>
    rw [List.foldl_cons, ih _ (fun pr hpr => h pr (List.mem_cons_of_mem hd hpr)),
      reviewerStep_preserves activeList rid acc hd q (h hd (List.mem_cons_self hd tl))]

theorem foldl_groups_preserves (activeList : List String)
    (gs : List (String × List PullRequest)) (acc : St × Nat) (q : String)
    (h : ∀ g ∈ gs, ∀ pr ∈ g.2, pr.prID ≠ q) :
    getPRByID (gs.foldl (fun acc g => g.2.foldl (reviewerStep activeList g.1) acc) acc).1 q =
      getPRByID acc.1 q := by
  induction gs generalizing acc with
  | nil => rfl
  | cons hd tl ih =>
    rw [List.foldl_cons, ih _ (fun g hg => h g (List.mem_cons_of_mem hd hg)),
      foldl_reviewerStep_preserves activeList hd.1 hd.2 acc q (h hd (List.mem_cons_self hd tl))]

/-- C9: MERGED is a terminal, frozen state.  With unique PR ids (the
`pull_request_id` primary key), a PR stored as MERGED is returned unchanged
— same status, author, reviewer set and timestamps — after any merge call,
any single reviewer reassignment, and any deactivation cascade whose
reviewer grouping only lists snapshots of PRs that are OPEN in the current
state (as `GetOpenPRsByReviewers` guarantees): the cascade reassigns
authorship and reviewers only on OPEN PRs. -/
theorem merged_pr_frozen (st : St) (q : String) (p : PullRequest)
    (prID : String) (t : Nat) (prID2 oldUserID : String) (k : Nat)
    (teamName : String) (userIDs activeList : List String)
    (reviewerGroups : List (String × List PullRequest))
    (hq : getPRByID st q = some p)
    (hm : p.status = "MERGED")
    (hnodup : (st.prs.map (fun pr => pr.prID)).Nodup)
    (hgs : ∀ g ∈ reviewerGroups, ∀ pr ∈ g.2, isOpenIn st pr.prID = true) :
    getPRByID (resultState (mergePR st prID t) st) q = some p ∧
    getPRByID (resultState (reassignReviewer st prID2 oldUserID k) st) q = some p ∧
    getPRByID (resultState (deactivateTeamMembers st teamName userIDs activeList reviewerGroups) st) q =
      some p := by
  refine ⟨?_, ?_, ?_⟩
  · unfold mergePR
    cases hc : getPRByID st prID with
    | none => exact hq
    | some pr2 =>
      dsimp only
      by_cases hs : pr2.status = "MERGED"
      · rw [if_pos hs]
        exact hq
      · rw [if_neg hs]
        have hne : q ≠ prID := by
          intro he
          rw [he] at hq
          rw [hq] at hc
          exact hs (Option.some.inj hc ▸ hm)
        have hup := updateStatus_merged_found st prID t hc
        rw [hup]
        show getPRByID (updateStatus st prID "MERGED" t) q = some p
        unfold updateStatus
        rw [getPRByID_updatePR_of_ne
          (fun pr => if ("MERGED" : String) = "MERGED"
            then { pr with status := "MERGED", mergedAt := some t }
            else { pr with status := "MERGED" })
          (fun x => by dsimp only; split <;> rfl) hne]
        exact hq
  · unfold reassignReviewer
    cases hc : getPRByID st prID2 with
    | none => exact hq
    | some pr2 =>
      dsimp only
      by_cases hs : pr2.status = "MERGED"
      · rw [if_pos hs]
        exact hq
      · rw [if_neg hs]
        have hne : q ≠ prID2 := by
          intro he
          rw [he] at hq
          rw [hq] at hc
          exact hs (Option.some.inj hc ▸ hm)
        by_cases ha : oldUserID ∉ pr2.assignedReviewers
        · rw [if_pos ha]
          exact hq
        · rw [if_neg ha]
          cases ho : getUserByID st oldUserID with
          | none => exact hq
          | some oldUser =>
            dsimp only
            by_cases hfe : (getActiveTeamMembers st oldUser.teamName oldUserID).filter
                (fun c => decide (c.userID ∉ pr2.assignedReviewers)) = []
            · rw [if_pos hfe]
              exact hq
            · rw [if_neg hfe]
              have hup := getPRByID_updatePR_of_found
                (fun x => { x with assignedReviewers :=
                  (pr2.assignedReviewers.filter (fun r => decide (r ≠ oldUserID))) ++
                    [(((getActiveTeamMembers st oldUser.teamName oldUserID).filter
                      (fun c => decide (c.userID ∉ pr2.assignedReviewers))).getD
                        (k % ((getActiveTeamMembers st oldUser.teamName oldUserID).filter
                          (fun c => decide (c.userID ∉ pr2.assignedReviewers))).length)
                        ⟨"", "", "", false⟩).userID] })
                (fun x => rfl) hc
              rw [show updateReviewers st prID2 _ = updatePR st prID2 _ from rfl] at *
              rw [hup]
              show getPRByID (updatePR st prID2 _) q = some p
              refine Eq.trans (getPRByID_updatePR_of_ne _ ?_ hne) hq
              intro x
              rfl
  · unfold deactivateTeamMembers
    by_cases h0 : userIDs = []
    · rw [if_pos h0]
      exact hq
    · rw [if_neg h0]
      by_cases h1 : teamName ∉ st.teams
      · rw [if_pos h1]
        exact hq
      · rw [if_neg h1]
        by_cases h2 : (getUsersByIDs st userIDs).length ≠ userIDs.length
        · rw [if_pos h2]
          exact hq
        · rw [if_neg h2]
          by_cases h3 : ¬ (∀ u ∈ getUsersByIDs st userIDs, u.teamName = teamName)
          · rw [if_pos h3]
            exact hq
          · rw [if_neg h3]
            show getPRByID (deactivateUsers _ userIDs) q = some p
            rw [getPRByID_deactivateUsers]
            have hpmem : p ∈ st.prs := by
              have := List.mem_of_find?_eq_some hq
              exact this
            have hpid : p.prID = q := find?_eq_some_prID hq
            have hne_authors : ∀ pr ∈ getOpenPRsByAuthors st userIDs, pr.prID ≠ q := by
              intro pr hpr he
              have hmf := List.mem_filter.mp hpr
              have hopen := (of_decide_eq_true hmf.2).1
              have heq : pr = p :=
                List.inj_on_of_nodup_map hnodup hmf.1 hpmem (he.trans hpid.symm)
              rw [heq, hm] at hopen
              exact absurd hopen (by decide)
            have hne_groups : ∀ g ∈ reviewerGroups, ∀ pr ∈ g.2, pr.prID ≠ q := by
              intro g hg pr hpr he
              have hopen := hgs g hg pr hpr
              unfold isOpenIn at hopen
              rw [he, hq] at hopen
              dsimp only at hopen
              rw [hm] at hopen
              exact absurd (of_decide_eq_true hopen) (by decide)
            rw [foldl_groups_preserves _ _ _ _ hne_groups,
              foldl_authorStep_preserves _ _ _ _ hne_authors]
            exact hq

/-- Witness for `merged_pr_frozen`: the merged PR `p2` of `stDemo` is
untouched by a merge of `p1`, a reassignment on `p1`, and a cascade
deactivating `c`. -/
theorem merged_pr_frozen_witness :
    getPRByID stDemo "p2" = some ⟨"p2", "P2", "a", "MERGED", ["b"], some 0, some 2⟩ ∧
    (stDemo.prs.map (fun pr => pr.prID)).Nodup ∧
    (∀ g ∈ reviewerGroupsCanonical stDemo ["c"], ∀ pr ∈ g.2, isOpenIn stDemo pr.prID = true) ∧
    (getPRByID (resultState (mergePR stDemo "p1" 5) stDemo) "p2" =
        some ⟨"p2", "P2", "a", "MERGED", ["b"], some 0, some 2⟩ ∧
      getPRByID (resultState (reassignReviewer stDemo "p1" "b" 0) stDemo) "p2" =
        some ⟨"p2", "P2", "a", "MERGED", ["b"], some 0, some 2⟩ ∧
      getPRByID (resultState (deactivateTeamMembers stDemo "t" ["c"] ["a", "b"]
          (reviewerGroupsCanonical stDemo ["c"])) stDemo) "p2" =
        some ⟨"p2", "P2", "a", "MERGED", ["b"], some 0, some 2⟩) :=
  ⟨rfl, by decide, by decide,
    merged_pr_frozen stDemo "p2" ⟨"p2", "P2", "a", "MERGED", ["b"], some 0, some 2⟩
      "p1" 5 "p1" "b" 0 "t" ["c"] ["a", "b"] (reviewerGroupsCanonical stDemo ["c"])
      rfl rfl (by decide) (by decide)⟩
